import Mathlib

/-!
Verification of the kafka-hwsw demo clients (Go): a shallow embedding of
the producer (cmd/producer/main.go) and the consumer (cmd/consumer/main.go),
covering the event generator, environment parsing, the producer send loop,
the consumer claim loop, and the partition-distribution summaries.

Conventions of the embedding:
- Go wall-clock reads (time.Now(), called once per generator iteration) are
  modelled by an explicit clock parameter giving the nanosecond reading at
  iteration i.
- The producer and consumer loops are modelled as functions over an explicit
  list of loop inputs (scheduler choices): a tick with its send result, an
  incoming message, a closed-channel nil, or a fired cancellation context.
- Each log.Printf call is one structured output line carrying precisely the
  data the format string interpolates.
- Go maps keyed by string are modelled as association lists in insertion
  order; the randomised iteration order of a Go map range statement is
  modelled, wherever a claim depends on it, by quantifying over
  permutations — of the record entries for the outer range of the summary
  printers, and of each user's distinct-partition enumeration for the
  inner range over the uniquePartitions set map.
-/

namespace KafkaHWSW

/-! Event generator (cmd/producer/main.go, generateUserEvents). -/

/-- One second in nanoseconds: time.Duration(i) * time.Second adds
i * 1000000000 ns to the wall-clock reading. -/
def oneSecond : Nat := 1000000000

/-- The fixed user-id list of generateUserEvents. -/
def users : List String := ["user-123", "user-456", "user-789"]

/-- The fixed event-type list of generateUserEvents. -/
def eventTypes : List String :=
  ["page_view", "purchase", "login", "logout", "search", "add_to_cart"]

/-- UserEvent struct: user id, event type, timestamp (ns), and the Data
attributes (string keyed, all values strings here), in insertion order. -/
structure UserEvent where
  userID : String
  eventType : String
  timestamp : Nat
  data : List (String × String)
deriving DecidableEq, Repr

/-- Placeholder event used as the default of list lookups (never produced
by the generator; lookups are always in range where it is used). -/
def noEvent : UserEvent := { userID := "", eventType := "", timestamp := 0, data := [] }

/-- Decimal rendering of the purchase amount float64((i%1000)+1)/100 under
the %.2f format: n/100 with n in 1..1000 round-trips exactly through the
nearest double, so the printed text is the exact two-decimal rendering. -/
def amountString (i : Nat) : String :=
  let n := i % 1000 + 1
  toString (n / 100) ++ "." ++ (if n % 100 < 10 then "0" else "") ++ toString (n % 100)

/-- The three attributes written for every event, in insertion order. -/
def baseData (i : Nat) : List (String × String) :=
  [("session_id", "session-" ++ toString i),
   ("ip_address", "192.168.1." ++ toString (i % 254 + 1)),
   ("user_agent", "Mozilla/5.0 (Macintosh; Intel Mac OS X 10_15_7)")]

/-- The Data attributes of event i: the base map plus the purchase or
search extras, exactly as generateUserEvents inserts them. -/
def eventData (i : Nat) (eventType : String) : List (String × String) :=
  if eventType = "purchase" then
    baseData i ++ [("amount", amountString i), ("product_id", "prod-" ++ toString (i % 100 + 1))]
  else if eventType = "search" then
    baseData i ++ [("query", "search term " ++ toString (i + 1))]
  else
    baseData i

/-- The event built at loop index i; clock i is the time.Now() reading (ns)
of that iteration, and the timestamp adds i seconds to it. -/
def mkUserEvent (clock : Nat → Nat) (i : Nat) : UserEvent :=
  let eventType := eventTypes.getD (i % eventTypes.length) ""
  { userID := users.getD (i % users.length) ""
    eventType := eventType
    timestamp := clock i + i * oneSecond
    data := eventData i eventType }

/-- generateUserEvents(count): the loop for i := 0; i < count; i++ over a
Go int count (a negative count yields the empty slice). -/
def generateUserEvents (clock : Nat → Nat) (count : Int) : List UserEvent :=
  (List.range count.toNat).map (mkUserEvent clock)

/-- A concrete wall clock that advances by 5 ns between the second and
third generator iterations (any real clock may drift like this). -/
def skewClock : Nat → Nat := fun i => if i < 2 then 0 else 5

/-! Environment parsing (getEnvAsInt in both main.go files). -/

/-- strconv.Atoi on a 64-bit platform: optional single sign, then a
nonempty run of decimal digits, rejecting anything else and any value
outside the int64 range (overflow makes Atoi return an error). -/
def goAtoi (s : String) : Option Int :=
  let signSplit : Bool × List Char :=
    match s.data with
    | '+' :: rest => (false, rest)
    | '-' :: rest => (true, rest)
    | other => (false, other)
  let neg := signSplit.1
  let ds := signSplit.2
  if ds = [] then none
  else if ds.all (fun c => decide ('0' ≤ c) && decide (c ≤ '9')) then
    let n : Nat := ds.foldl (fun acc c => acc * 10 + (c.toNat - 48)) 0
    let v : Int := if neg then -(n : Int) else (n : Int)
    if -(2 ^ 63) ≤ v ∧ v ≤ 2 ^ 63 - 1 then some v else none
  else none

/-- getEnvAsInt(key, defaultValue): os.Getenv is modelled as a total map
from variable names to strings, with the empty string standing for an
unset variable exactly as in Go. -/
def getEnvAsInt (env : String → String) (key : String) (defaultValue : Int) : Int :=
  let value := env key
  if value ≠ "" then
    match goAtoi value with
    | some intValue => intValue
    | none => defaultValue
  else defaultValue

/-! Partition distribution record, shared by producer and consumer. -/

/-- partitionMap[key] = append(partitionMap[key], partition) on a Go map
modelled as an association list in insertion order. -/
def recordPartition (m : List (String × List Int)) (k : String) (p : Int) :
    List (String × List Int) :=
  if m.any (fun e => e.1 = k) then
    m.map (fun e => if e.1 = k then (e.1, e.2 ++ [p]) else e)
  else m ++ [(k, [p])]

/-- One canonical duplicate-free enumeration (first occurrence) of the
unique partitions of one user, standing for the key set of the inner
uniquePartitions map both printers build. The real inner range statement
presents these keys in a randomized order: wherever a claim depends on the
printed order, the relations IsConsumerSummaryOutput and
IsProducerSummaryOutput below quantify over all permutations of this
enumeration (and of the outer entry order) instead of fixing it. -/
def uniquePartsOf (ps : List Int) : List Int := ps.eraseDups

/-! Consumer (cmd/consumer/main.go). -/

/-- A delivered message as ConsumeClaim reads it from the claim channel. -/
structure ConsMsg where
  key : String
  partition : Int
  offset : Int
  value : String
deriving DecidableEq, Repr

/-- One observation of the ConsumeClaim select loop: a delivered message,
a nil read from the closed claim channel, or the session context firing. -/
inductive ConsIn where
  | msg (m : ConsMsg)
  | nilMsg
  | ctxDone
deriving DecidableEq, Repr

/-- One consumer log.Printf line, carrying exactly the data interpolated
by its format string. -/
inductive ConsOut where
  | msgLog (n : Nat) (partition offset : Int) (key value : String)
  | blank
  | summaryHeader
  | userSummary (userID : String) (messages : Nat) (uniqueParts : List Int)
  | summaryFooter
deriving DecidableEq, Repr

/-- showPartitionSummary(partitionMap): a blank line, the header, one line
per user in the order the map range presents the entries, and the footer. -/
def showPartitionSummary (entries : List (String × List Int)) : List ConsOut :=
  ConsOut.blank :: ConsOut.summaryHeader ::
    entries.map (fun e => ConsOut.userSummary e.1 e.2.length (uniquePartsOf e.2)) ++
    [ConsOut.summaryFooter]

/-- The local state of one ConsumeClaim invocation: the distribution
record, the received-message counter, the double-print guard, the offsets
marked via session.MarkMessage, and the lines logged so far. -/
structure CCState where
  partitionMap : List (String × List Int)
  messageCount : Nat
  summaryShown : Bool
  marked : List ConsMsg
  output : List ConsOut
deriving DecidableEq, Repr

/-- ConsumeClaim's select loop over the observations it makes. A message
bumps the counter, records the partition under the message key, logs a
line, marks the offset, and loops; a nil read or a fired context prints
the summary (when unprinted and the record is nonempty) and returns,
leaving any later observations unconsumed. -/
def consumeClaim : List ConsIn → CCState → CCState
  | [], st => st
  | ConsIn.msg m :: rest, st =>
      let n := st.messageCount + 1
      consumeClaim rest
        { partitionMap := recordPartition st.partitionMap m.key m.partition
          messageCount := n
          summaryShown := st.summaryShown
          marked := st.marked ++ [m]
          output := st.output ++ [ConsOut.msgLog n m.partition m.offset m.key m.value] }
  | ConsIn.nilMsg :: _, st =>
      if !st.summaryShown ∧ st.partitionMap.length > 0 then
        { st with summaryShown := true, output := st.output ++ showPartitionSummary st.partitionMap }
      else st
  | ConsIn.ctxDone :: _, st =>
      if !st.summaryShown ∧ st.partitionMap.length > 0 then
        { st with summaryShown := true, output := st.output ++ showPartitionSummary st.partitionMap }
      else st

/-- The fresh local state ConsumeClaim allocates at each invocation. -/
def initCC : CCState :=
  { partitionMap := [], messageCount := 0, summaryShown := false, marked := [], output := [] }

/-- One full ConsumeClaim invocation from its fresh state. -/
def runConsumeClaim (ins : List ConsIn) : CCState := consumeClaim ins initCC

/-- A consumer process run: Consume calls the library in a loop, so
ConsumeClaim is invoked once per partition claim session, each on a fresh
local state; the process log is the concatenation of the claim logs. -/
def consumerProcessOutput (claims : List (List ConsIn)) : List ConsOut :=
  (claims.map (fun c => (runConsumeClaim c).output)).flatten

/-! Producer (cmd/producer/main.go). -/

/-- One observation of the producer select loop: a ticker tick (with the
result the subsequent SendMessage call would return, some (partition,
offset) or none for an error) or the cancellation context firing. -/
inductive PIn where
  | tick (result : Option (Int × Int))
  | ctxDone
deriving DecidableEq, Repr

/-- One producer log line, carrying exactly the interpolated data. -/
inductive POut where
  | sent (partition offset : Int) (key eventType : String)
  | sendFailed
  | sentCountStopping (n : Nat)
  | producerStopped
  | blank
  | summaryHeader
  | userSummary (userID : String) (messages : Nat) (uniqueParts : List Int)
  | summaryFooter
deriving DecidableEq, Repr

/-- showProducerPartitionSummary(partitionMap): same shape as the consumer
summary (the format strings differ only in wording). -/
def showProducerPartitionSummary (entries : List (String × List Int)) : List POut :=
  POut.blank :: POut.summaryHeader ::
    entries.map (fun e => POut.userSummary e.1 e.2.length (uniquePartsOf e.2)) ++
    [POut.summaryFooter]

/-- The producer main-loop state: the send counter, the distribution
record, the number of SendMessage calls attempted, whether the loop has
returned, and the log so far. -/
structure PState where
  count : Nat
  partitionMap : List (String × List Int)
  sendsAttempted : Nat
  stopped : Bool
  output : List POut
deriving DecidableEq, Repr

/-- The producer select loop. On ctx.Done it logs and returns at once
(later inputs unconsumed). On a tick it first checks count >= messageCount
|| count >= len(events) (Go int comparison; count is the loop counter):
if exhausted it logs, prints the summary and returns; otherwise it sends
events[count] keyed by its user id — a failure is logged and the record
left untouched, a success is logged and the partition appended under the
key — and in either case count advances and the loop continues. -/
def prodLoop (events : List UserEvent) (messageCount : Int) :
    List PIn → PState → PState
  | [], st => st
  | PIn.ctxDone :: _, st =>
      { st with output := st.output ++ [POut.producerStopped], stopped := true }
  | PIn.tick res :: rest, st =>
      if (st.count : Int) ≥ messageCount ∨ st.count ≥ events.length then
        { st with
            output := st.output ++ [POut.sentCountStopping st.count] ++
              showProducerPartitionSummary st.partitionMap
            stopped := true }
      else
        let e := events.getD st.count noEvent
        match res with
        | none =>
            prodLoop events messageCount rest
              { st with
                  sendsAttempted := st.sendsAttempted + 1
                  output := st.output ++ [POut.sendFailed]
                  count := st.count + 1 }
        | some (p, o) =>
            prodLoop events messageCount rest
              { st with
                  sendsAttempted := st.sendsAttempted + 1
                  partitionMap := recordPartition st.partitionMap e.userID p
                  output := st.output ++ [POut.sent p o e.userID e.eventType]
                  count := st.count + 1 }

/-- The producer loop state at entry to the for loop. -/
def initP : PState :=
  { count := 0, partitionMap := [], sendsAttempted := 0, stopped := false, output := [] }

/-- One producer main-loop run from the initial state. -/
def runProducerLoop (events : List UserEvent) (messageCount : Int) (ins : List PIn) : PState :=
  prodLoop events messageCount ins initP

/-! Nondeterministic model of one summary-printer call. Both printers
range over the partitionMap and, per user, over the inner uniquePartitions
set map; each Go map range presents its keys in a randomized order, so
one call's output is only determined up to a permutation of the entries
and, inside each user line, a permutation of that user's distinct
partitions. -/

/-- A line the inner range may print for user k with observed slice ps:
the message count is fixed at ps.length, and the unique-partition list is
some arbitrary-order enumeration of the distinct partitions of ps. -/
def ValidConsLine (k : String) (ps : List Int) (line : ConsOut) : Prop :=
  ∃ u : List Int, u.Perm (uniquePartsOf ps) ∧ line = ConsOut.userSummary k ps.length u

/-- out is a possible output of one showPartitionSummary(rec) call: the
outer range presents the entries of rec in some order e, each entry gets
one valid user line, and the frame is fixed. -/
def IsConsumerSummaryOutput (rec : List (String × List Int)) (out : List ConsOut) : Prop :=
  ∃ e : List (String × List Int), e.Perm rec ∧
    ∃ lines : List ConsOut,
      List.Forall₂ (fun ent line => ValidConsLine ent.1 ent.2 line) e lines ∧
      out = ConsOut.blank :: ConsOut.summaryHeader :: lines ++ [ConsOut.summaryFooter]

/-- A line the inner range of showProducerPartitionSummary may print. -/
def ValidProdLine (k : String) (ps : List Int) (line : POut) : Prop :=
  ∃ u : List Int, u.Perm (uniquePartsOf ps) ∧ line = POut.userSummary k ps.length u

/-- out is a possible output of one showProducerPartitionSummary(rec)
call, with both map iteration orders arbitrary. -/
def IsProducerSummaryOutput (rec : List (String × List Int)) (out : List POut) : Prop :=
  ∃ e : List (String × List Int), e.Perm rec ∧
    ∃ lines : List POut,
      List.Forall₂ (fun ent line => ValidProdLine ent.1 ent.2 line) e lines ∧
      out = POut.blank :: POut.summaryHeader :: lines ++ [POut.summaryFooter]

/-- The order-independent content of one consumer output line: a user
line keeps its user, count, and the multiset of listed partitions; frame
lines carry no data. -/
def canonConsLine : ConsOut → Option (String × Nat × Multiset Int)
  | ConsOut.userSummary k n u => some (k, n, (u : Multiset Int))
  | _ => none

/-- The order-independent content of one producer output line. -/
def canonProdLine : POut → Option (String × Nat × Multiset Int)
  | POut.userSummary k n u => some (k, n, (u : Multiset Int))
  | _ => none

/-! Helper lemmas. -/

lemma canonConsLine_of_valid {k : String} {ps : List Int} {line : ConsOut}
    (h : ValidConsLine k ps line) :
    canonConsLine line = some (k, ps.length, (uniquePartsOf ps : Multiset Int)) := by
  obtain ⟨u, hu, rfl⟩ := h
  have hc : (u : Multiset Int) = (uniquePartsOf ps : Multiset Int) :=
    Multiset.coe_eq_coe.mpr hu
  simp [canonConsLine, hc]

lemma canonProdLine_of_valid {k : String} {ps : List Int} {line : POut}
    (h : ValidProdLine k ps line) :
    canonProdLine line = some (k, ps.length, (uniquePartsOf ps : Multiset Int)) := by
  obtain ⟨u, hu, rfl⟩ := h
  have hc : (u : Multiset Int) = (uniquePartsOf ps : Multiset Int) :=
    Multiset.coe_eq_coe.mpr hu
  simp [canonProdLine, hc]

lemma map_canonConsLine {e : List (String × List Int)} {lines : List ConsOut}
    (h : List.Forall₂ (fun ent line => ValidConsLine ent.1 ent.2 line) e lines) :
    lines.map canonConsLine =
      e.map (fun ent => some (ent.1, ent.2.length, (uniquePartsOf ent.2 : Multiset Int))) := by
  induction h with
  | nil => rfl
  | cons h1 _ ih => simp [canonConsLine_of_valid h1, ih]

lemma map_canonProdLine {e : List (String × List Int)} {lines : List POut}
    (h : List.Forall₂ (fun ent line => ValidProdLine ent.1 ent.2 line) e lines) :
    lines.map canonProdLine =
      e.map (fun ent => some (ent.1, ent.2.length, (uniquePartsOf ent.2 : Multiset Int))) := by
  induction h with
  | nil => rfl
  | cons h1 _ ih => simp [canonProdLine_of_valid h1, ih]

lemma forall₂_validConsLine (e : List (String × List Int)) :
    List.Forall₂ (fun ent line => ValidConsLine ent.1 ent.2 line) e
      (e.map (fun ent => ConsOut.userSummary ent.1 ent.2.length (uniquePartsOf ent.2))) := by
  induction e with
  | nil => exact List.Forall₂.nil
  | cons hd tl ih => exact List.Forall₂.cons ⟨uniquePartsOf hd.2, List.Perm.refl _, rfl⟩ ih

lemma forall₂_validProdLine (e : List (String × List Int)) :
    List.Forall₂ (fun ent line => ValidProdLine ent.1 ent.2 line) e
      (e.map (fun ent => POut.userSummary ent.1 ent.2.length (uniquePartsOf ent.2))) := by
  induction e with
  | nil => exact List.Forall₂.nil
  | cons hd tl ih => exact List.Forall₂.cons ⟨uniquePartsOf hd.2, List.Perm.refl _, rfl⟩ ih

lemma isConsumerSummaryOutput_show (e rec : List (String × List Int)) (h : e.Perm rec) :
    IsConsumerSummaryOutput rec (showPartitionSummary e) :=
  ⟨e, h, _, forall₂_validConsLine e, rfl⟩

lemma isProducerSummaryOutput_show (e rec : List (String × List Int)) (h : e.Perm rec) :
    IsProducerSummaryOutput rec (showProducerPartitionSummary e) :=
  ⟨e, h, _, forall₂_validProdLine e, rfl⟩

lemma generateUserEvents_length (clock : Nat → Nat) (count : Int) :
    (generateUserEvents clock count).length = count.toNat := by
  simp [generateUserEvents]

lemma generateUserEvents_getD (clock : Nat → Nat) (count : Int) (i : Nat)
    (h : i < count.toNat) :
    (generateUserEvents clock count).getD i noEvent = mkUserEvent clock i := by
  simp [generateUserEvents, List.getD, List.getElem?_map, List.getElem?_range, h]

lemma mkUserEvent_timestamp (clock : Nat → Nat) (i : Nat) :
    (mkUserEvent clock i).timestamp = clock i + i * oneSecond := rfl

/-! Claims. -/

/-- Claim C5: for every N ≥ 0 the generator returns exactly N events, and
event i cycles through the fixed user and event-type lists by i mod the
list length. -/
theorem generateUserEvents_count_and_cycle (clock : Nat → Nat) (N : Int) (hN : 0 ≤ N) :
    ((generateUserEvents clock N).length : Int) = N ∧
    ∀ i : Nat, i < (generateUserEvents clock N).length →
      ((generateUserEvents clock N).getD i noEvent).userID =
        users.getD (i % users.length) "" ∧
      ((generateUserEvents clock N).getD i noEvent).eventType =
        eventTypes.getD (i % eventTypes.length) "" := by
  constructor
  · rw [generateUserEvents_length]
    exact_mod_cast Int.toNat_of_nonneg hN
  · intro i hi
    rw [generateUserEvents_length] at hi
    rw [generateUserEvents_getD clock N i hi]
    exact ⟨rfl, rfl⟩

/-- Witness for C5 at clock 0, N = 7, i = 4. -/
theorem generateUserEvents_count_and_cycle_witness :
    ((generateUserEvents (fun _ => 0) 7).length : Int) = 7 ∧
    ((generateUserEvents (fun _ => 0) 7).getD 4 noEvent).userID = users.getD 1 "" :=
  ⟨(generateUserEvents_count_and_cycle (fun _ => 0) 7 (by decide)).1,
   ((generateUserEvents_count_and_cycle (fun _ => 0) 7 (by decide)).2 4 (by decide)).1⟩

/-- Counterexample to claim C4 as stated: the generator reads time.Now()
while building each event, so two calls with the same count N = 1 made at
different wall-clock instants return different sequences (the timestamps
differ); the output is not independent of run-time state. -/
theorem generateUserEvents_not_run_time_independent :
    generateUserEvents (fun _ => 0) 1 ≠ generateUserEvents (fun _ => 1) 1 := by
  decide

/-- Claim C4 amended: for every N, two generator calls agree on the length
of the sequence and on every event's user id, event type and attributes;
only the timestamps depend on the wall clock at generation time. -/
theorem generateUserEvents_deterministic_except_timestamp (c1 c2 : Nat → Nat)
    (N : Int) (i : Nat) (h : i < N.toNat) :
    (generateUserEvents c1 N).length = (generateUserEvents c2 N).length ∧
    ((generateUserEvents c1 N).getD i noEvent).userID =
      ((generateUserEvents c2 N).getD i noEvent).userID ∧
    ((generateUserEvents c1 N).getD i noEvent).eventType =
      ((generateUserEvents c2 N).getD i noEvent).eventType ∧
    ((generateUserEvents c1 N).getD i noEvent).data =
      ((generateUserEvents c2 N).getD i noEvent).data := by
  rw [generateUserEvents_length, generateUserEvents_length,
    generateUserEvents_getD c1 N i h, generateUserEvents_getD c2 N i h]
  exact ⟨rfl, rfl, rfl, rfl⟩

/-- Witness for the amended C4 at two distinct clocks, N = 2, i = 0. -/
theorem generateUserEvents_deterministic_except_timestamp_witness :
    ((generateUserEvents (fun _ => 0) 2).getD 0 noEvent).userID =
      ((generateUserEvents (fun _ => 5) 2).getD 0 noEvent).userID :=
  (generateUserEvents_deterministic_except_timestamp (fun _ => 0) (fun _ => 5) 2 0
    (by decide)).2.1

/-- Counterexample to claim C6 as stated: with a wall clock that drifts
5 ns between the second and third iterations, the three timestamps of one
generated sequence have consecutive differences of 1000000000 ns and then
1000000005 ns, so the step between adjacent events is not one fixed
constant. -/
theorem generateUserEvents_step_not_fixed :
    ((generateUserEvents skewClock 3).getD 1 noEvent).timestamp -
      ((generateUserEvents skewClock 3).getD 0 noEvent).timestamp ≠
    ((generateUserEvents skewClock 3).getD 2 noEvent).timestamp -
      ((generateUserEvents skewClock 3).getD 1 noEvent).timestamp := by
  decide

/-- Claim C6 amended: whenever the wall clock is non-decreasing across the
generating loop, the timestamps of one generated sequence are strictly
increasing, and each consecutive difference is the fixed one-second step
plus the wall-clock advance between the two iterations (hence at least one
second, but not a single constant when the clock drifts). -/
theorem generateUserEvents_timestamps_mono (clock : Nat → Nat) (N : Int)
    (hc : ∀ i, clock i ≤ clock (i + 1)) (i : Nat) (h : i + 1 < N.toNat) :
    ((generateUserEvents clock N).getD i noEvent).timestamp <
      ((generateUserEvents clock N).getD (i + 1) noEvent).timestamp ∧
    ((generateUserEvents clock N).getD (i + 1) noEvent).timestamp -
      ((generateUserEvents clock N).getD i noEvent).timestamp =
      oneSecond + (clock (i + 1) - clock i) := by
  rw [generateUserEvents_getD clock N i (Nat.lt_of_succ_lt h),
    generateUserEvents_getD clock N (i + 1) h,
    mkUserEvent_timestamp, mkUserEvent_timestamp]
  have hci := hc i
  have hone : (i + 1) * oneSecond = i * oneSecond + oneSecond := by ring
  have hpos : 0 < oneSecond := by decide
  omega

/-- Witness for the amended C6 at the constant-zero clock, N = 3, i = 0. -/
theorem generateUserEvents_timestamps_mono_witness :
    ((generateUserEvents (fun _ => 0) 3).getD 0 noEvent).timestamp <
      ((generateUserEvents (fun _ => 0) 3).getD 1 noEvent).timestamp :=
  (generateUserEvents_timestamps_mono (fun _ => 0) 3 (fun _ => Nat.le_refl 0) 0
    (by decide)).1

/-- An environment in which MAX_MESSAGES is set to 3 and everything else
is unset. -/
def maxMessagesEnv : String → String := fun k => if k = "MAX_MESSAGES" then "3" else ""

/-- A claim stream delivering four messages for one key and then the
closed-channel nil. -/
def fourMsgStream : List ConsIn :=
  [ConsIn.msg { key := "user-123", partition := 0, offset := 0, value := "v1" },
   ConsIn.msg { key := "user-123", partition := 0, offset := 1, value := "v2" },
   ConsIn.msg { key := "user-123", partition := 0, offset := 2, value := "v3" },
   ConsIn.msg { key := "user-123", partition := 0, offset := 3, value := "v4" },
   ConsIn.nilMsg]

/-- Claim C1, evaluated at the failing input: with MAX_MESSAGES=3 the main
function computes maxMessages = 3, but the consume loop takes no bound at
all (maxMessages is read, logged and then never consulted), so a stream of
four messages is consumed in full — the counter reaches 4 instead of
stopping at 3. -/
theorem consumeClaim_ignores_max_messages :
    getEnvAsInt maxMessagesEnv "MAX_MESSAGES" 0 = 3 ∧
    (runConsumeClaim fourMsgStream).messageCount = 4 := by
  decide

/-- Two consecutive claim sessions, each delivering one message and then
ending (for instance across a consumer-group rebalance). -/
def twoClaimStreams : List (List ConsIn) :=
  [[ConsIn.msg { key := "user-123", partition := 0, offset := 0, value := "a" }, ConsIn.nilMsg],
   [ConsIn.msg { key := "user-123", partition := 0, offset := 1, value := "b" }, ConsIn.nilMsg]]

/-- Counterexample to claim C3 as stated: the double-print guard is a
local variable of each ConsumeClaim invocation, so a process whose
Consume loop runs two claim sessions prints the summary header twice —
not at most once per process. -/
theorem consumer_summary_not_once_per_process :
    ¬ (consumerProcessOutput twoClaimStreams).count ConsOut.summaryHeader ≤ 1 := by
  decide

lemma showPartitionSummary_count_header (entries : List (String × List Int)) :
    (showPartitionSummary entries).count ConsOut.summaryHeader = 1 := by
  simp [showPartitionSummary, List.count_cons, List.count_append, List.count_eq_zero,
    List.mem_map]

lemma consumeClaim_count_header (ins : List ConsIn) (st : CCState) :
    (consumeClaim ins st).output.count ConsOut.summaryHeader ≤
      st.output.count ConsOut.summaryHeader + 1 := by
  induction ins generalizing st with
  | nil => simp [consumeClaim]
  | cons hd tl ih =>
    cases hd with
    | msg m =>
      rw [consumeClaim]
      refine le_trans (ih _) ?_
      simp [List.count_append, List.count_cons]
    | nilMsg =>
      rw [consumeClaim]
      split
      · simp [List.count_append, showPartitionSummary_count_header]
      · simp
    | ctxDone =>
      rw [consumeClaim]
      split
      · simp [List.count_append, showPartitionSummary_count_header]
      · simp

/-- Claim C3 amended: within one ConsumeClaim invocation the summary is
printed at most once whichever shutdown path runs, but the guard is local
to the invocation, so a process prints it at most once per partition-claim
session, not at most once per process. -/
theorem consumeClaim_summary_at_most_once (ins : List ConsIn) :
    (runConsumeClaim ins).output.count ConsOut.summaryHeader ≤ 1 := by
  have h := consumeClaim_count_header ins initCC
  simpa [runConsumeClaim, initCC] using h

/-- Five generated events (constant clock), as the producer builds before
its loop when MESSAGE_COUNT=5. -/
def fiveEvents : List UserEvent := generateUserEvents (fun _ => 0) 5

/-- A producer schedule: one successful tick, then the cancellation
context fires, then one more tick arrives (never looked at). -/
def cancelSchedule : List PIn :=
  [PIn.tick (some (1, 0)), PIn.ctxDone, PIn.tick (some (1, 1))]

/-- Counterexample to claim C2 as stated: after one successful send the
distribution record is nonempty, yet when cancellation is observed the
loop only logs that the producer stopped and returns — the run's output
contains no summary header, so the partial summary is not printed. The
attempt counter stays at 1: the tick queued after the cancellation is
never processed. -/
theorem producer_cancellation_no_summary :
    (runProducerLoop fiveEvents 5 cancelSchedule).partitionMap ≠ [] ∧
    (runProducerLoop fiveEvents 5 cancelSchedule).output.count POut.summaryHeader = 0 ∧
    (runProducerLoop fiveEvents 5 cancelSchedule).sendsAttempted = 1 := by
  decide

/-- Claim C2 amended: when the cancellation signal is observed the main
loop stops at once — no later input is consumed, so no further message is
sent and the distribution record is left as it was — and it terminates
after logging only the stop line, without printing the accumulated
partition-distribution summary. -/
theorem producer_cancellation_stops_without_summary (events : List UserEvent)
    (mc : Int) (rest : List PIn) (st : PState) :
    (prodLoop events mc (PIn.ctxDone :: rest) st).sendsAttempted = st.sendsAttempted ∧
    (prodLoop events mc (PIn.ctxDone :: rest) st).partitionMap = st.partitionMap ∧
    (prodLoop events mc (PIn.ctxDone :: rest) st).output =
      st.output ++ [POut.producerStopped] ∧
    (prodLoop events mc (PIn.ctxDone :: rest) st).output.count POut.summaryHeader =
      st.output.count POut.summaryHeader ∧
    (prodLoop events mc (PIn.ctxDone :: rest) st).stopped = true := by
  refine ⟨rfl, rfl, rfl, ?_, rfl⟩
  simp [prodLoop, List.count_append]

/-- Claim C8: a failed send is logged and attempted-counted, leaves the
distribution record untouched, advances the loop counter, and the loop
goes on to process the rest of the schedule (the next tick attempts the
next event in the sequence, indexed by the advanced counter). -/
theorem producer_send_failure_continues (events : List UserEvent) (mc : Int)
    (rest : List PIn) (st : PState) (h1 : (st.count : Int) < mc)
    (h2 : st.count < events.length) :
    prodLoop events mc (PIn.tick none :: rest) st =
      prodLoop events mc rest
        { st with
            sendsAttempted := st.sendsAttempted + 1
            output := st.output ++ [POut.sendFailed]
            count := st.count + 1 } := by
  have hcond : ¬((st.count : Int) ≥ mc ∨ st.count ≥ events.length) := by
    push_neg
    exact ⟨h1, h2⟩
  rw [prodLoop, if_neg hcond]

/-- Witness for C8: the first tick of a three-event run fails. -/
theorem producer_send_failure_continues_witness :
    prodLoop (generateUserEvents (fun _ => 0) 3) 3 [PIn.tick none] initP =
      prodLoop (generateUserEvents (fun _ => 0) 3) 3 []
        { initP with
            sendsAttempted := 1
            output := [POut.sendFailed]
            count := 1 } :=
  producer_send_failure_continues (generateUserEvents (fun _ => 0) 3) 3 [] initP
    (by decide) (by decide)

/-- Claim C9: with MESSAGE_COUNT=0 the parsed count is 0, the first tick
immediately takes the stop path: no send is attempted, the record stays
empty, the output is the stop line plus a summary frame with zero per-user
lines, and the loop returns normally (the process then exits 0; a nonzero
exit happens only via the fatal connection path before the loop). -/
theorem producer_zero_message_count (clock : Nat → Nat) (res : Option (Int × Int))
    (rest : List PIn) :
    getEnvAsInt (fun k => if k = "MESSAGE_COUNT" then "0" else "") "MESSAGE_COUNT" 20 = 0 ∧
    (runProducerLoop (generateUserEvents clock 0) 0 (PIn.tick res :: rest)).sendsAttempted = 0 ∧
    (runProducerLoop (generateUserEvents clock 0) 0 (PIn.tick res :: rest)).partitionMap = [] ∧
    (runProducerLoop (generateUserEvents clock 0) 0 (PIn.tick res :: rest)).output =
      [POut.sentCountStopping 0, POut.blank, POut.summaryHeader, POut.summaryFooter] ∧
    (runProducerLoop (generateUserEvents clock 0) 0 (PIn.tick res :: rest)).stopped = true := by
  have hev : generateUserEvents clock 0 = [] := rfl
  refine ⟨by decide, ?_, ?_, ?_, ?_⟩ <;>
    simp [runProducerLoop, prodLoop, hev, initP, showProducerPartitionSummary]

/-- A two-user distribution record in one insertion order. -/
def recAB : List (String × List Int) := [("user-123", [0]), ("user-456", [1])]

/-- The same record as the map range may present it on another call. -/
def recBA : List (String × List Int) := [("user-456", [1]), ("user-123", [0])]

/-- Counterexample to claim C7 as stated: a Go map range presents its
entries in an arbitrary order on each call, so two calls of the summary
printer on the same unchanged two-user record can emit the per-user lines
in opposite orders — the outputs are not identical. -/
theorem showPartitionSummary_order_dependent :
    recAB.Perm recBA ∧ showPartitionSummary recAB ≠ showPartitionSummary recBA := by
  constructor
  · decide
  · decide

/-- Claim C7 amended: two calls of either summary printer on the same
unchanged record print outputs of the same length whose lines carry the
same order-independent content — the same frame, and for each user one
line with that user's message count and the multiset of its unique
partitions — but both the order of the per-user lines and the order of
the partitions inside a line follow the randomized map iteration orders,
so verbatim-identical output is not guaranteed. -/
theorem summaryPrinter_content_up_to_map_order (rec : List (String × List Int))
    (out1 out2 : List ConsOut) (pout1 pout2 : List POut)
    (h1 : IsConsumerSummaryOutput rec out1) (h2 : IsConsumerSummaryOutput rec out2)
    (h3 : IsProducerSummaryOutput rec pout1) (h4 : IsProducerSummaryOutput rec pout2) :
    out1.length = out2.length ∧
    (out1.map canonConsLine).Perm (out2.map canonConsLine) ∧
    pout1.length = pout2.length ∧
    (pout1.map canonProdLine).Perm (pout2.map canonProdLine) := by
  obtain ⟨e1, he1, l1, hf1, rfl⟩ := h1
  obtain ⟨e2, he2, l2, hf2, rfl⟩ := h2
  obtain ⟨e3, he3, l3, hf3, rfl⟩ := h3
  obtain ⟨e4, he4, l4, hf4, rfl⟩ := h4
  refine ⟨?_, ?_, ?_, ?_⟩
  · have a1 := hf1.length_eq
    have a2 := he1.length_eq
    have a3 := hf2.length_eq
    have a4 := he2.length_eq
    simp only [List.length_cons, List.length_append]
    omega
  · simp only [List.map_cons, List.map_append, List.map_nil,
      map_canonConsLine hf1, map_canonConsLine hf2]
    exact .cons _ (.cons _ (((he1.trans he2.symm).map _).append (List.Perm.refl _)))
  · have a1 := hf3.length_eq
    have a2 := he3.length_eq
    have a3 := hf4.length_eq
    have a4 := he4.length_eq
    simp only [List.length_cons, List.length_append]
    omega
  · simp only [List.map_cons, List.map_append, List.map_nil,
      map_canonProdLine hf3, map_canonProdLine hf4]
    exact .cons _ (.cons _ (((he3.trans he4.symm).map _).append (List.Perm.refl _)))

/-- Witness for the amended C7: two calls on the concrete two-user record,
one per map presentation order, for each printer. -/
theorem summaryPrinter_content_up_to_map_order_witness :
    ((showPartitionSummary recAB).map canonConsLine).Perm
      ((showPartitionSummary recBA).map canonConsLine) ∧
    ((showProducerPartitionSummary recAB).map canonProdLine).Perm
      ((showProducerPartitionSummary recBA).map canonProdLine) := by
  have h := summaryPrinter_content_up_to_map_order recAB
    (showPartitionSummary recAB) (showPartitionSummary recBA)
    (showProducerPartitionSummary recAB) (showProducerPartitionSummary recBA)
    (isConsumerSummaryOutput_show recAB recAB (List.Perm.refl recAB))
    (isConsumerSummaryOutput_show recBA recAB (by decide))
    (isProducerSummaryOutput_show recAB recAB (List.Perm.refl recAB))
    (isProducerSummaryOutput_show recBA recAB (by decide))
  exact ⟨h.2.1, h.2.2.2⟩

/-- Claim C10: getEnvAsInt falls back to the built-in default when the
variable is unset or empty (Go reports both as the empty string) or when
Atoi rejects the value, and otherwise returns the parsed integer as-is,
negative values included; no error is reported on the fallback path (the
function produces no output at all). -/
theorem getEnvAsInt_spec (env : String → String) (key : String) (d : Int) :
    (env key = "" → getEnvAsInt env key d = d) ∧
    (goAtoi (env key) = none → getEnvAsInt env key d = d) ∧
    (∀ n : Int, goAtoi (env key) = some n → getEnvAsInt env key d = n) := by
  refine ⟨?_, ?_, ?_⟩
  · intro h
    simp [getEnvAsInt, h]
  · intro h
    by_cases he : env key = "" <;> simp [getEnvAsInt, he, h]
  · intro n h
    have he : env key ≠ "" := by
      intro he
      rw [he] at h
      have h0 : goAtoi "" = none := rfl
      rw [h0] at h
      exact Option.noConfusion h
    simp [getEnvAsInt, he, h]

/-- Witness for C10: an unset variable, a malformed value, and a negative
value, each named exactly as the programs read them. -/
theorem getEnvAsInt_spec_witness :
    getEnvAsInt (fun _ => "") "MESSAGE_COUNT" 20 = 20 ∧
    getEnvAsInt (fun _ => "12abc") "MESSAGE_INTERVAL_MS" 500 = 500 ∧
    getEnvAsInt (fun _ => "-3") "MAX_MESSAGES" 0 = -3 :=
  ⟨(getEnvAsInt_spec (fun _ => "") "MESSAGE_COUNT" 20).1 rfl,
   (getEnvAsInt_spec (fun _ => "12abc") "MESSAGE_INTERVAL_MS" 500).2.1 (by decide),
   (getEnvAsInt_spec (fun _ => "-3") "MAX_MESSAGES" 0).2.2 (-3) (by decide)⟩

end KafkaHWSW
